import Mathlib

/-!
Shallow embedding of `linopy/remote.py` (`RemoteHandler`): the interactive
shell protocol of `execute` and the workflow of `solve_on_remote`, together
with theorems checking the natural-language specification against it.
-/

namespace Linopy

/-- Lines and command texts are modelled as lists of characters. -/
abbrev Line := List Char

/-- Python `s.strip(chars)` with a character predicate `p`: remove matching
characters from both ends of the string. -/
def pyStripChars (p : Char → Bool) (s : Line) : Line :=
  ((s.dropWhile p).reverse.dropWhile p).reverse

/-- Model of `cmd.strip("\n")` from `RemoteHandler.execute` (remote.py line 169). -/
def pyStripNl (s : Line) : Line := pyStripChars (fun c => c == '\n') s

/-- Python `s.strip()`: strip whitespace from both ends. -/
def pyStripWs (s : Line) : Line := pyStripChars Char.isWhitespace s

/-- Model of `str(line).strip("\n").strip()` applied to each received line
(remote.py line 179). -/
def cleanLine (s : Line) : Line := pyStripWs (pyStripNl s)

/-- Python `line.endswith(t)`. -/
def pyEndsWith (line t : Line) : Bool := t.isSuffixOf line

/-- Python `line.startswith(t)`. -/
def pyStartsWith (line t : Line) : Bool := t.isPrefixOf line

/-- Python `t in line` (substring containment). -/
def pyContains (line t : Line) : Bool := line.tails.any (fun s => t.isPrefixOf s)

/-- The sentinel token `finish` from remote.py line 171. -/
def finishTok : Line := ("End of stdout buffer. Finished with exit status").data

/-- Model of `"echo {} $?".format(finish)` (remote.py line 172). -/
def echoCmd : Line := ("echo ").data ++ finishTok ++ (" $?").data

/-- Last whitespace-separated token: models `s.rsplit(maxsplit=1)[1]` on a
string without trailing whitespace; `none` models the IndexError raised when
the string contains no whitespace at all (rsplit then returns one part). -/
def pyRsplitLast (s : Line) : Option Line :=
  if s.any (fun c => c.isWhitespace) then
    some ((s.reverse.takeWhile (fun c => !c.isWhitespace)).reverse)
  else none

/-- Python `int(tok)` restricted to the decimal-digit tokens produced by the
shell protocol's `$?`; any other shape maps to `none` (a ValueError). -/
def parseDigits (s : Line) : Option Nat :=
  if s ≠ [] ∧ s.all (fun c => c.isDigit) then
    some (s.foldl (fun a c => a * 10 + (c.toNat - 48)) 0)
  else none

/-- Exceptions that can escape `RemoteHandler.execute`. -/
inductive ExecError
  | executionError  -- the OSError raised on nonzero exit status (line 190)
  | valueError      -- int() applied to a non-numeric token (line 184)
  | indexError      -- rsplit(maxsplit=1)[1] on a whitespace-free line (line 184)
deriving DecidableEq

/-- Result of the read loop of `execute`: the lines printed to the local
output sink plus either the final `exit_status` or the exception that
escaped the loop. -/
inductive LoopOut
  | done (printed : List Line) (exitStatus : Nat)
  | err (printed : List Line) (e : ExecError)
deriving DecidableEq

/-- Lines printed by a finished loop, whether it ended normally or not. -/
def LoopOut.printedLines : LoopOut → List Line
  | .done p _ => p
  | .err p _ => p

/-- The `for line in self.stdout` loop of `RemoteHandler.execute`
(remote.py lines 176-187); `ps` is the `print_stdout` flag. -/
def execLoop (cmd : Line) (ps : Bool) : List Line → LoopOut
  | [] => .done [] 0
  | raw :: rest =>
    if pyEndsWith (cleanLine raw) cmd then
      execLoop cmd true rest
    else if pyStartsWith (cleanLine raw) finishTok then
      match pyRsplitLast (cleanLine raw) with
      | none => .err [] .indexError
      | some tok =>
        match parseDigits tok with
        | none => .err [] .valueError
        | some e => .done [] e
    else if !(pyContains (cleanLine raw) finishTok) && ps then
      match execLoop cmd ps rest with
      | .done p e => .done (cleanLine raw :: p) e
      | .err p e => .err (cleanLine raw :: p) e
    else
      execLoop cmd ps rest

/-- An event on the remote shell's input stream. -/
inductive StdinEvent
  | write (s : Line)
  | flush
deriving DecidableEq

/-- Observable outcome of one `execute` call: what was written to the remote
stdin, the lines printed to the local output sink, and the result. -/
structure ExecOut where
  stdinTrace : List StdinEvent
  printed : List Line
  result : Except ExecError Unit

/-- Model of `RemoteHandler.execute` (remote.py lines 165-190), run against a
given list of lines arriving on `self.stdout`. -/
def execute (cmd0 : Line) (stdoutLines : List Line) : ExecOut :=
  let cmd := pyStripNl cmd0
  let trace := [StdinEvent.write (cmd ++ ['\n']),
                StdinEvent.write (echoCmd ++ ['\n']),
                StdinEvent.flush]
  match execLoop cmd false stdoutLines with
  | .done p e =>
    { stdinTrace := trace, printed := p,
      result := if e ≠ 0 then Except.error ExecError.executionError else Except.ok () }
  | .err p e => { stdinTrace := trace, printed := p, result := Except.error e }

/-- Errors that can escape `RemoteHandler.solve_on_remote`. -/
inductive WfError
  | transferError                 -- an SFTP put/get or remote-write failure
  | attributeError                -- access to an attribute the dataclass lacks
  | execError (e : ExecError)     -- propagated unchanged from execute
deriving DecidableEq

/-- The configuration fields of the `RemoteHandler` dataclass that the
workflow reads (remote.py lines 110-121), plus the two hook attributes that
`solve_on_remote` reads at lines 220-224.  The dataclass declares no
`pre_execution`/`post_execution` field, so those attributes exist only when a
caller has assigned them on the instance; `none` models an absent attribute
(whose access raises AttributeError), `some s` models an assigned string. -/
structure Handler where
  python_executable : Line
  python_file : Line
  pre_execution : Option Line
  post_execution : Option Line

/-- Model of building `command` in `solve_on_remote` (remote.py lines
218-224): join interpreter and script path with a space, then prepend a
truthy `pre_execution` and append a truthy `post_execution`, each joined by a
newline.  Reading a missing attribute raises AttributeError. -/
def buildCommand (h : Handler) : Except WfError Line :=
  let c0 := h.python_executable ++ ' ' :: h.python_file
  match h.pre_execution with
  | none => Except.error WfError.attributeError
  | some pre =>
    let c1 := if pre ≠ [] then pre ++ '\n' :: c0 else c0
    match h.post_execution with
    | none => Except.error WfError.attributeError
    | some post =>
      Except.ok (if post ≠ [] then c1 ++ '\n' :: post else c1)

/-- Externally observable workflow events of one `solve_on_remote` call. -/
inductive WfEvent
  | stageScript          -- sftp open/write of the python script (lines 153-154)
  | putModel             -- sftp put of the unsolved model (line 163)
  | execCmd (cmd : Line) -- the single execute call (line 227)
  | getModel             -- sftp get of the solved model (line 231)
deriving DecidableEq

/-- Behaviour of the environment one `solve_on_remote` call runs against:
whether each transfer primitive succeeds, and the shell output stream the
`execute` call consumes. -/
structure RemoteEnv where
  stageOk : Bool
  putOk : Bool
  stdoutLines : List Line
  getOk : Bool

/-- Model of `RemoteHandler.solve_on_remote` (remote.py lines 192-232):
stage the script, put the unsolved model, build the command line, execute it,
and get the solved model back; the first failure aborts the call.  Returns
the call's result together with the ordered trace of workflow events. -/
def solveOnRemote (h : Handler) (env : RemoteEnv) :
    Except WfError Unit × List WfEvent :=
  if !env.stageOk then (Except.error WfError.transferError, [WfEvent.stageScript])
  else if !env.putOk then
    (Except.error WfError.transferError, [WfEvent.stageScript, WfEvent.putModel])
  else
    match buildCommand h with
    | Except.error e => (Except.error e, [WfEvent.stageScript, WfEvent.putModel])
    | Except.ok cmd =>
      match (execute cmd env.stdoutLines).result with
      | Except.error e =>
        (Except.error (WfError.execError e),
         [WfEvent.stageScript, WfEvent.putModel, WfEvent.execCmd cmd])
      | Except.ok _ =>
        if !env.getOk then
          (Except.error WfError.transferError,
           [WfEvent.stageScript, WfEvent.putModel, WfEvent.execCmd cmd, WfEvent.getModel])
        else
          (Except.ok (),
           [WfEvent.stageScript, WfEvent.putModel, WfEvent.execCmd cmd, WfEvent.getModel])

/-- The default `python_executable` of the dataclass (remote.py line 117). -/
def defaultExecutable : Line := ("python").data

/-- The default `python_file` of the dataclass (remote.py line 118). -/
def defaultPythonFile : Line := ("/tmp/linopy-execution.py").data

/-- A `RemoteHandler` as produced by the dataclass constructor: the
`pre_execution` and `post_execution` attributes are never declared or
assigned, hence absent. -/
def mkDefaultHandler : Handler :=
  { python_executable := defaultExecutable, python_file := defaultPythonFile,
    pre_execution := none, post_execution := none }

/-- Model of Python `str.format` with named fields: every `\x7bkey\x7d`
occurrence is replaced by `env key`; all keys referenced by the template are
assumed present in the keyword arguments (as they are at the call site). -/
def pyFormat (env : Line → Line) : Line → Line
  | [] => []
  | c :: rest =>
    if c = '{' then
      env (rest.takeWhile (fun d => d ≠ '}')) ++
        pyFormat env ((rest.dropWhile (fun d => d ≠ '}')).drop 1)
    else
      c :: pyFormat env rest
termination_by l => l.length
decreasing_by
  · have h1 : (rest.dropWhile (fun d => d ≠ '}')).length ≤ rest.length :=
      (List.dropWhile_suffix _).length_le
    have h2 : ((rest.dropWhile (fun d => d ≠ '}')).drop 1).length ≤
        (rest.dropWhile (fun d => d ≠ '}')).length := by
      rw [List.length_drop]; omega
    simp only [List.length_cons]; omega
  · simp only [List.length_cons]; omega

/-- The python script template `command` (remote.py lines 19-25). -/
def commandTemplate : Line :=
  ("\nimport linopy\n\nm = linopy.read_netcdf(\"{model_unsolved_file}\")\nm.solve({solve_kwargs})\nm.to_netcdf(\"{model_solved_file}\")\n").data

/-- Model of `command.format(model_unsolved_file=u, solve_kwargs=o,
model_solved_file=s)`, the `python_script` default (remote.py line 116). -/
def renderScript (u o s : Line) : Line :=
  pyFormat (fun k =>
    if k = ("model_unsolved_file").data then u
    else if k = ("solve_kwargs").data then o
    else if k = ("model_solved_file").data then s
    else []) commandTemplate

/-- Does a workflow trace contain an `execCmd` event for any command? -/
def hasExecEvent (tr : List WfEvent) : Bool :=
  tr.any (fun e => match e with
    | WfEvent.execCmd _ => true
    | _ => false)

/-- A handler whose hook attributes have been assigned (to empty, hence
falsy, strings), as a caller would have to do for `solve_on_remote` to get
past the attribute accesses. -/
def hookHandler : Handler :=
  { python_executable := defaultExecutable, python_file := defaultPythonFile,
    pre_execution := some [], post_execution := some [] }

/-- The command line built from the default interpreter and script path. -/
def cmdDefaultJoin : Line := defaultExecutable ++ ' ' :: defaultPythonFile

/-- An environment in which every step succeeds (the empty shell stream makes
the execute loop finish with the initial exit status 0). -/
def envAllOk : RemoteEnv :=
  { stageOk := true, putOk := true, stdoutLines := [], getOk := true }

/-- An environment whose model upload fails. -/
def envPutFail : RemoteEnv :=
  { stageOk := true, putOk := false, stdoutLines := [], getOk := true }

/-- An environment in which the remote command exits with status 1: the shell
echoes the command, then emits the sentinel line with exit status 1. -/
def envBadExit : RemoteEnv :=
  { stageOk := true, putOk := true,
    stdoutLines := [cmdDefaultJoin, finishTok ++ (" 1").data], getOk := true }

/-! ### Helper lemmas about the string primitives -/

theorem pyEndsWith_self (l : Line) : pyEndsWith l l = true := by
  simp [pyEndsWith, List.isSuffixOf_iff_suffix]

theorem pyStartsWith_append (a b : Line) : pyStartsWith (a ++ b) a = true := by
  simp [pyStartsWith, List.isPrefixOf_iff_prefix]

theorem head?_dropWhile_false {p : Char → Bool} {l : Line} {c : Char}
    (h : (l.dropWhile p).head? = some c) : p c = false := by
  have hw := List.head?_dropWhile_not p l
  rw [h] at hw
  exact hw

theorem dropWhile_eq_self_of_head {p : Char → Bool} {l : Line}
    (h : ∀ c, l.head? = some c → p c = false) : l.dropWhile p = l := by
  cases l with
  | nil => rfl
  | cons a as =>
    have ha := h a rfl
    simp [List.dropWhile_cons, ha]

theorem pyStripChars_head {p : Char → Bool} {l : Line} {c : Char}
    (h : (pyStripChars p l).head? = some c) : p c = false := by
  unfold pyStripChars at h
  rw [List.head?_reverse] at h
  have hsfx : (l.dropWhile p).reverse.dropWhile p <:+ (l.dropWhile p).reverse :=
    List.dropWhile_suffix p
  obtain ⟨t, ht⟩ := hsfx
  have hne : (l.dropWhile p).reverse.dropWhile p ≠ [] := by
    intro hnil
    rw [hnil, List.getLast?_nil] at h
    exact Option.noConfusion h
  have hlast : ((l.dropWhile p).reverse).getLast? = some c := by
    rw [← ht, List.getLast?_append]
    cases hgl : ((l.dropWhile p).reverse.dropWhile p).getLast? with
    | none => exact absurd (List.getLast?_eq_none_iff.mp hgl) hne
    | some d =>
      rw [hgl] at h
      simp [hgl]
      exact Option.some.inj h
  rw [List.getLast?_reverse] at hlast
  exact head?_dropWhile_false hlast

theorem pyStripChars_getLast {p : Char → Bool} {l : Line} {c : Char}
    (h : (pyStripChars p l).getLast? = some c) : p c = false := by
  unfold pyStripChars at h
  rw [List.getLast?_reverse] at h
  exact head?_dropWhile_false h

theorem pyStripChars_eq_self {p : Char → Bool} {l : Line}
    (h1 : ∀ c, l.head? = some c → p c = false)
    (h2 : ∀ c, l.getLast? = some c → p c = false) : pyStripChars p l = l := by
  unfold pyStripChars
  rw [dropWhile_eq_self_of_head h1]
  rw [dropWhile_eq_self_of_head (by
    intro c hc
    rw [List.head?_reverse] at hc
    exact h2 c hc)]
  exact List.reverse_reverse l

theorem pyStripChars_decomp (p : Char → Bool) (l : Line) :
    l = l.takeWhile p ++ pyStripChars p l ++
        ((l.dropWhile p).reverse.takeWhile p).reverse := by
  unfold pyStripChars
  conv_lhs => rw [← List.takeWhile_append_dropWhile p l]
  rw [List.append_assoc]
  congr 1
  conv_lhs => rw [← List.reverse_reverse (l.dropWhile p)]
  conv_lhs => rw [← List.takeWhile_append_dropWhile p (l.dropWhile p).reverse]
  rw [List.reverse_append]

theorem digit_not_ws {c : Char} (h : c.isDigit = true) : c.isWhitespace = false := by
  by_contra hw
  rw [Bool.not_eq_false] at hw
  simp only [Char.isWhitespace, Bool.or_eq_true, decide_eq_true_eq] at hw
  rcases hw with ((h1 | h1) | h1) | h1 <;> subst h1 <;> exact absurd h (by decide)

theorem digit_ne_nl {c : Char} (h : c.isDigit = true) : (c == '\n') = false := by
  have hw := digit_not_ws h
  by_contra hb
  rw [Bool.not_eq_false, beq_iff_eq] at hb
  subst hb
  exact absurd hw (by decide)

theorem parseDigits_ne_nil {ds : Line} {E : Nat} (h : parseDigits ds = some E) :
    ds ≠ [] := by
  intro hnil
  subst hnil
  simp [parseDigits] at h

theorem parseDigits_all_digits {ds : Line} {E : Nat} (h : parseDigits ds = some E) :
    ∀ c ∈ ds, c.isDigit = true := by
  unfold parseDigits at h
  split at h
  · next hc => exact fun c hm => List.all_eq_true.mp hc.2 c hm
  · exact absurd h (by simp)

theorem getLast?_sentinel {ds : Line} (hne : ds ≠ []) :
    (finishTok ++ ' ' :: ds).getLast? = ds.getLast? := by
  rw [List.getLast?_append]
  have : (' ' :: ds).getLast? = ds.getLast? := by
    rw [show (' ' :: ds) = [' '] ++ ds from rfl, List.getLast?_append]
    cases hgl : ds.getLast? with
    | none => exact absurd (List.getLast?_eq_none_iff.mp hgl) hne
    | some d => rfl
  rw [this]
  cases hgl : ds.getLast? with
  | none => exact absurd (List.getLast?_eq_none_iff.mp hgl) hne
  | some d => rfl

theorem cleanLine_sentinel {ds : Line} (hne : ds ≠ [])
    (hdig : ∀ c ∈ ds, c.isDigit = true) :
    cleanLine (finishTok ++ ' ' :: ds) = finishTok ++ ' ' :: ds := by
  obtain ⟨d, hd⟩ : ∃ d, ds.getLast? = some d := by
    cases hgl : ds.getLast? with
    | none => exact absurd (List.getLast?_eq_none_iff.mp hgl) hne
    | some d => exact ⟨d, rfl⟩
  have hdm : d ∈ ds := List.mem_of_mem_getLast? (by rw [hd]; rfl)
  have hdd := hdig d hdm
  have hhead : (finishTok ++ ' ' :: ds).head? = some 'E' := rfl
  have hlast : (finishTok ++ ' ' :: ds).getLast? = some d := by
    rw [getLast?_sentinel hne, hd]
  have hnl : pyStripNl (finishTok ++ ' ' :: ds) = finishTok ++ ' ' :: ds := by
    apply pyStripChars_eq_self
    · intro c hc
      rw [hhead] at hc
      cases Option.some.inj hc
      decide
    · intro c hc
      rw [hlast] at hc
      cases Option.some.inj hc
      exact digit_ne_nl hdd
  unfold cleanLine
  rw [hnl]
  apply pyStripChars_eq_self
  · intro c hc
    rw [hhead] at hc
    cases Option.some.inj hc
    decide
  · intro c hc
    rw [hlast] at hc
    cases Option.some.inj hc
    exact digit_not_ws hdd

theorem pyRsplitLast_sentinel {ds : Line}
    (hdig : ∀ c ∈ ds, c.isDigit = true) :
    pyRsplitLast (finishTok ++ ' ' :: ds) = some ds := by
  unfold pyRsplitLast
  rw [if_pos ?_]
  · congr 1
    have hrev : (finishTok ++ ' ' :: ds).reverse =
        ds.reverse ++ ' ' :: finishTok.reverse := by
      rw [List.reverse_append, List.reverse_cons, List.append_assoc]
      rfl
    rw [hrev]
    rw [List.takeWhile_append_of_pos ?_]
    · rw [List.takeWhile_cons_of_neg (by simp)]
      simp
    · intro c hc
      have hcd := hdig c (List.mem_reverse.mp hc)
      simp [digit_not_ws hcd]
  · rw [List.any_eq_true]
    exact ⟨' ', by simp, by decide⟩

theorem pyStripNl_of_cleanLine_fix {s : Line} (h : cleanLine s = s) :
    pyStripNl s = s := by
  have hth : pyStripChars Char.isWhitespace (pyStripNl s) = s := h
  apply pyStripChars_eq_self
  · intro c hc
    have hws : c.isWhitespace = false := by
      apply pyStripChars_head (p := Char.isWhitespace) (l := pyStripNl s)
      rw [hth]
      exact hc
    by_contra hb
    rw [Bool.not_eq_false, beq_iff_eq] at hb
    subst hb
    exact absurd hws (by decide)
  · intro c hc
    have hws : c.isWhitespace = false := by
      apply pyStripChars_getLast (p := Char.isWhitespace) (l := pyStripNl s)
      rw [hth]
      exact hc
    by_contra hb
    rw [Bool.not_eq_false, beq_iff_eq] at hb
    subst hb
    exact absurd hws (by decide)

/-! ### Lemmas about the execute read loop -/

theorem execLoop_cons (cmd : Line) (ps : Bool) (raw : Line) (rest : List Line) :
    execLoop cmd ps (raw :: rest) =
      if pyEndsWith (cleanLine raw) cmd then
        execLoop cmd true rest
      else if pyStartsWith (cleanLine raw) finishTok then
        match pyRsplitLast (cleanLine raw) with
        | none => LoopOut.err [] ExecError.indexError
        | some tok =>
          match parseDigits tok with
          | none => LoopOut.err [] ExecError.valueError
          | some e => LoopOut.done [] e
      else if !(pyContains (cleanLine raw) finishTok) && ps then
        match execLoop cmd ps rest with
        | LoopOut.done p e => LoopOut.done (cleanLine raw :: p) e
        | LoopOut.err p e => LoopOut.err (cleanLine raw :: p) e
      else
        execLoop cmd ps rest := rfl

theorem execLoop_no_sentinel (cmd : Line) (lines : List Line) :
    ∀ (ps : Bool), (∀ l ∈ lines, pyStartsWith (cleanLine l) finishTok = false) →
      ∃ p, execLoop cmd ps lines = LoopOut.done p 0 := by
  induction lines with
  | nil => exact fun ps _ => ⟨[], rfl⟩
  | cons raw rest ih =>
    intro ps h
    have hh := h raw (List.mem_cons_self raw rest)
    have ht : ∀ l ∈ rest, pyStartsWith (cleanLine l) finishTok = false :=
      fun l hl => h l (List.mem_cons_of_mem _ hl)
    rw [execLoop_cons, hh]
    cases hb1 : pyEndsWith (cleanLine raw) cmd
    · cases hb3 : !(pyContains (cleanLine raw) finishTok) && ps
      · simpa [hb3] using ih ps ht
      · obtain ⟨p, hp⟩ := ih ps ht
        refine ⟨cleanLine raw :: p, ?_⟩
        simp [hb3, hp]
    · simpa using ih true ht

theorem execLoop_skip_pre (cmd : Line) (rest : List Line) :
    ∀ (pre : List Line),
      (∀ l ∈ pre, pyEndsWith (cleanLine l) cmd = false ∧
        pyStartsWith (cleanLine l) finishTok = false) →
      execLoop cmd false (pre ++ rest) = execLoop cmd false rest := by
  intro pre
  induction pre with
  | nil => exact fun _ => rfl
  | cons raw pre ih =>
    intro h
    have hh := h raw (List.mem_cons_self raw pre)
    have ht : ∀ l ∈ pre, pyEndsWith (cleanLine l) cmd = false ∧
        pyStartsWith (cleanLine l) finishTok = false :=
      fun l hl => h l (List.mem_cons_of_mem _ hl)
    rw [List.cons_append, execLoop_cons, hh.1, hh.2]
    simp [ih ht]

theorem execLoop_skip_pre_printed (cmd : Line) (rest : List Line) :
    ∀ (pre : List Line),
      (∀ l ∈ pre, pyEndsWith (cleanLine l) cmd = false) →
      execLoop cmd false (pre ++ rest) = execLoop cmd false rest ∨
      (execLoop cmd false (pre ++ rest)).printedLines = [] := by
  intro pre
  induction pre with
  | nil => exact fun _ => Or.inl rfl
  | cons raw pre ih =>
    intro h
    have hh := h raw (List.mem_cons_self raw pre)
    have ht : ∀ l ∈ pre, pyEndsWith (cleanLine l) cmd = false :=
      fun l hl => h l (List.mem_cons_of_mem _ hl)
    rw [List.cons_append, execLoop_cons, hh]
    cases hb2 : pyStartsWith (cleanLine raw) finishTok
    · rw [if_neg Bool.false_ne_true, if_neg Bool.false_ne_true, Bool.and_false,
        if_neg Bool.false_ne_true]
      exact ih ht
    · rw [if_neg Bool.false_ne_true, if_pos rfl]
      right
      cases hr : pyRsplitLast (cleanLine raw) with
      | none => simp [LoopOut.printedLines]
      | some tok =>
        cases hp : parseDigits tok <;> simp [hp, LoopOut.printedLines]

theorem execLoop_printed (cmd : Line) (lines : List Line) :
    ∀ (ps : Bool) (l : Line), l ∈ (execLoop cmd ps lines).printedLines →
      pyEndsWith l cmd = false := by
  induction lines with
  | nil =>
    intro ps l hl
    simp [execLoop, LoopOut.printedLines] at hl
  | cons raw rest ih =>
    intro ps l hl
    rw [execLoop_cons] at hl
    cases hb1 : pyEndsWith (cleanLine raw) cmd
    · rw [hb1, if_neg Bool.false_ne_true] at hl
      cases hb2 : pyStartsWith (cleanLine raw) finishTok
      · rw [hb2, if_neg Bool.false_ne_true] at hl
        cases hb3 : !(pyContains (cleanLine raw) finishTok) && ps
        · rw [hb3, if_neg Bool.false_ne_true] at hl
          exact ih ps l hl
        · rw [hb3, if_pos rfl] at hl
          cases he : execLoop cmd ps rest with
          | done p e =>
            rw [he] at hl
            simp only [LoopOut.printedLines] at hl
            rcases List.mem_cons.mp hl with h1 | h1
            · rw [h1]; exact hb1
            · exact ih ps l (by rw [he]; exact h1)
          | err p e =>
            rw [he] at hl
            simp only [LoopOut.printedLines] at hl
            rcases List.mem_cons.mp hl with h1 | h1
            · rw [h1]; exact hb1
            · exact ih ps l (by rw [he]; exact h1)
      · rw [hb2, if_pos rfl] at hl
        cases hr : pyRsplitLast (cleanLine raw) with
        | none =>
          rw [hr] at hl
          simp [LoopOut.printedLines] at hl
        | some tok =>
          rw [hr] at hl
          cases hp : parseDigits tok <;> simp [hp, LoopOut.printedLines] at hl
    · rw [hb1, if_pos rfl] at hl
      exact ih true l hl

theorem execLoop_after_echo (cmd ds : Line) (E : Nat)
    (hE : parseDigits ds = some E)
    (hsent : pyEndsWith (finishTok ++ ' ' :: ds) cmd = false) :
    ∀ (mid : List Line),
      (∀ l ∈ mid, pyStartsWith (cleanLine l) finishTok = false) →
      execLoop cmd true (mid ++ [finishTok ++ ' ' :: ds]) =
        LoopOut.done ((mid.map cleanLine).filter
          (fun l => !(pyContains l finishTok) && !(pyEndsWith l cmd))) E := by
  have hne := parseDigits_ne_nil hE
  have hdig := parseDigits_all_digits hE
  have hclean := cleanLine_sentinel hne hdig
  have hrs := pyRsplitLast_sentinel hdig
  intro mid
  induction mid with
  | nil =>
    intro _
    rw [List.nil_append, execLoop_cons, hclean, hsent,
      pyStartsWith_append finishTok (' ' :: ds)]
    simp [hrs, hE]
  | cons raw mid ih =>
    intro h
    have hh := h raw (List.mem_cons_self raw mid)
    have ht : ∀ l ∈ mid, pyStartsWith (cleanLine l) finishTok = false :=
      fun l hl => h l (List.mem_cons_of_mem _ hl)
    rw [List.cons_append, execLoop_cons, hh]
    cases hb1 : pyEndsWith (cleanLine raw) cmd
    · cases hc : pyContains (cleanLine raw) finishTok
      · rw [ih ht]
        simp [hb1, hc, List.filter_cons]
      · rw [ih ht]
        simp [hb1, hc, List.filter_cons]
    · rw [ih ht]
      simp [hb1, List.filter_cons]

/-! ### Lemmas connecting execute to its loop -/

theorem execute_printed_eq (cmd0 : Line) (lines : List Line) :
    (execute cmd0 lines).printed =
      (execLoop (pyStripNl cmd0) false lines).printedLines := by
  cases h : execLoop (pyStripNl cmd0) false lines with
  | done p e => simp [execute, h, LoopOut.printedLines]
  | err p e => simp [execute, h, LoopOut.printedLines]

theorem execute_result_done {cmd0 : Line} {lines : List Line} {p : List Line}
    {E : Nat} (h : execLoop (pyStripNl cmd0) false lines = LoopOut.done p E) :
    (execute cmd0 lines).result =
      if E ≠ 0 then Except.error ExecError.executionError else Except.ok () := by
  simp [execute, h]

theorem execute_trace_eq (cmd0 : Line) (lines : List Line) :
    (execute cmd0 lines).stdinTrace =
      [StdinEvent.write (pyStripNl cmd0 ++ ['\n']),
       StdinEvent.write (echoCmd ++ ['\n']),
       StdinEvent.flush] := by
  cases h : execLoop (pyStripNl cmd0) false lines with
  | done p e => simp [execute, h]
  | err p e => simp [execute, h]

/-! ### Lemmas about the script formatter -/

theorem pyFormat_nil (env : Line → Line) : pyFormat env [] = [] := by
  simp [pyFormat]

theorem pyFormat_cons_of_ne (env : Line → Line) {c : Char} (rest : Line)
    (h : c ≠ '{') : pyFormat env (c :: rest) = c :: pyFormat env rest := by
  rw [pyFormat]
  simp [h]

theorem pyFormat_brace (env : Line → Line) (key rest : Line)
    (hk : ∀ c ∈ key, c ≠ '}') :
    pyFormat env ('{' :: (key ++ '}' :: rest)) = env key ++ pyFormat env rest := by
  rw [pyFormat]
  rw [if_pos rfl]
  have ht : (key ++ '}' :: rest).takeWhile (fun d => d ≠ '}') = key := by
    rw [List.takeWhile_append_of_pos (by
      intro a ha
      simpa using hk a ha)]
    rw [List.takeWhile_cons_of_neg (by simp)]
    simp
  have hd : (key ++ '}' :: rest).dropWhile (fun d => d ≠ '}') = '}' :: rest := by
    rw [List.dropWhile_append_of_pos (by
      intro a ha
      simpa using hk a ha)]
    rw [List.dropWhile_cons_of_neg (by simp)]
  rw [ht, hd]
  simp

theorem pyFormat_append_no_brace (env : Line → Line) (b : Line) :
    ∀ (a : Line), (∀ c ∈ a, c ≠ '{') →
      pyFormat env (a ++ b) = a ++ pyFormat env b := by
  intro a
  induction a with
  | nil => exact fun _ => by simp
  | cons c a ih =>
    intro h
    rw [List.cons_append,
      pyFormat_cons_of_ne env _ (h c (List.mem_cons_self c a)),
      ih (fun d hd => h d (List.mem_cons_of_mem _ hd))]
    rfl

/-! ### Claim theorems -/

/-- C6: every invocation of execute writes exactly two lines to the remote
shell's input stream — the normalized command text and the line
`echo <FINISH_TOKEN> $?` — each terminated by a single newline (the
normalized command never ends in a newline itself), with exactly one flush
issued after both writes, and the finish token is exactly the string
"End of stdout buffer. Finished with exit status". -/
theorem C6_stdin_protocol (cmd0 : Line) (lines : List Line) :
    (execute cmd0 lines).stdinTrace =
      [StdinEvent.write (pyStripNl cmd0 ++ ['\n']),
       StdinEvent.write (("echo ").data ++ finishTok ++ (" $?").data ++ ['\n']),
       StdinEvent.flush]
    ∧ finishTok = ("End of stdout buffer. Finished with exit status").data
    ∧ (pyStripNl cmd0).getLast? ≠ some '\n' := by
  refine ⟨?_, rfl, ?_⟩
  · rw [execute_trace_eq]
    rfl
  · intro hc
    unfold pyStripNl at hc
    have h2 := pyStripChars_getLast hc
    simp at h2

/-- C10: when the stdout stream ends without any line starting with the
finish token ever being observed, execute returns successfully: the exit
status keeps its initial value 0 and no error is raised. -/
theorem C10_no_sentinel_success (cmd0 : Line) (lines : List Line)
    (h : ∀ l ∈ lines, pyStartsWith (cleanLine l) finishTok = false) :
    (execute cmd0 lines).result = Except.ok () := by
  obtain ⟨p, hp⟩ := execLoop_no_sentinel (pyStripNl cmd0) lines false h
  rw [execute_result_done hp]
  simp

/-- Witness for C10 at a concrete command and stream. -/
theorem C10_witness :
    (execute (("ls").data) [("hello").data]).result = Except.ok () :=
  C10_no_sentinel_success (("ls").data) [("hello").data] (by decide)

/-- C5 counterexample: a line that begins with the finish token but arrives
before the echo is parsed as the sentinel and does affect the exit-code
parse: with command "foo" and stream [finish 1, echo, finish 0], execute
raises ExecutionError although the sentinel following the echo carries 0. -/
theorem C5_cex :
    (execute (("foo").data)
      [finishTok ++ (" 1").data, ("foo").data, finishTok ++ (" 0").data]).result =
      Except.error ExecError.executionError := rfl

/-- C5 (amended): pre-echo lines — lines not ending with the normalized
command text, arriving before any echo — are never forwarded to the output
sink: the printed output of the run is either empty (when such a line starts
with the finish token and aborts the scan as a sentinel) or exactly the
printed output of the run without those lines; and provided additionally
that none of them starts with the finish token, they have no effect at all
on the invocation. -/
theorem C5_pre_echo_ignored (cmd0 : Line) (pre rest : List Line) :
    ((∀ l ∈ pre, pyEndsWith (cleanLine l) (pyStripNl cmd0) = false) →
      (execute cmd0 (pre ++ rest)).printed = [] ∨
      (execute cmd0 (pre ++ rest)).printed = (execute cmd0 rest).printed)
    ∧ ((∀ l ∈ pre, pyEndsWith (cleanLine l) (pyStripNl cmd0) = false ∧
          pyStartsWith (cleanLine l) finishTok = false) →
        execute cmd0 (pre ++ rest) = execute cmd0 rest) := by
  constructor
  · intro h
    rcases execLoop_skip_pre_printed (pyStripNl cmd0) rest pre h with heq | hnil
    · right
      rw [execute_printed_eq, execute_printed_eq, heq]
    · left
      rw [execute_printed_eq, hnil]
  · intro h
    simp only [execute]
    rw [execLoop_skip_pre (pyStripNl cmd0) rest pre h]

/-- Witness for C5: both parts at concrete banner lines, the first over a
full echo-output-sentinel stream. -/
theorem C5_witness :
    ((execute (("ls").data)
        ([("Welcome").data] ++
          [("ls").data, ("out").data, finishTok ++ (" 0").data])).printed = [] ∨
      (execute (("ls").data)
        ([("Welcome").data] ++
          [("ls").data, ("out").data, finishTok ++ (" 0").data])).printed =
        (execute (("ls").data)
          [("ls").data, ("out").data, finishTok ++ (" 0").data]).printed)
    ∧ execute (("ls").data) ([("Welcome").data] ++ [("ls").data]) =
        execute (("ls").data) [("ls").data] :=
  ⟨(C5_pre_echo_ignored (("ls").data) [("Welcome").data]
      [("ls").data, ("out").data, finishTok ++ (" 0").data]).1 (by decide),
   (C5_pre_echo_ignored (("ls").data) [("Welcome").data] [("ls").data]).2
      (by decide)⟩

/-- C4 counterexample: the echo-skip rule is not restricted to the first
matching line: with command "foo" and stream [echo, "bar foo", sentinel 0],
the post-echo line "bar foo" ends with the command text and does not contain
the finish token, yet nothing is forwarded to the output sink. -/
theorem C4_cex :
    (execute (("foo").data)
        [("foo").data, ("bar foo").data, finishTok ++ (" 0").data]).printed = []
    ∧ pyEndsWith (cleanLine (("bar foo").data)) (("foo").data) = true
    ∧ pyContains (cleanLine (("bar foo").data)) finishTok = false := by
  exact ⟨by decide, by decide, by decide⟩

/-- C4 (amended): the endswith-echo test is applied to every received line
regardless of the echoSeen state, so a line whose cleaned content ends with
the normalized command text is never forwarded to the output sink, even
after the echo has been seen. -/
theorem C4_no_printed_endswith (cmd0 : Line) (lines : List Line) (l : Line)
    (h : l ∈ (execute cmd0 lines).printed) :
    pyEndsWith l (pyStripNl cmd0) = false := by
  rw [execute_printed_eq] at h
  exact execLoop_printed (pyStripNl cmd0) lines false l h

/-- Witness for C4 at a concrete printed line. -/
theorem C4_witness :
    pyEndsWith (("bar").data) (pyStripNl (("foo").data)) = false :=
  C4_no_printed_endswith (("foo").data) [("foo").data, ("bar").data]
    (("bar").data) (by decide)

/-- C3 counterexample: `strip` with a newline argument removes leading
newlines as well: with input "\nfoo", the first stdin write is "foo\n", so
the leading newline of the input is not preserved. -/
theorem C3_cex :
    (execute (("\nfoo").data) []).stdinTrace.head? =
      some (StdinEvent.write (("foo\n").data))
    ∧ (("foo\n").data : Line) ≠ ("\nfoo\n").data := by
  exact ⟨rfl, by decide⟩

/-- C3 (amended): execute normalizes the command text by stripping newline
characters from both ends: the text written to the shell before the appended
single newline is the input minus some number of leading and some number of
trailing newline characters, and itself neither starts nor ends with a
newline. -/
theorem C3_strip_both_ends (cmd0 : Line) (lines : List Line) :
    (execute cmd0 lines).stdinTrace.head? =
      some (StdinEvent.write (pyStripNl cmd0 ++ ['\n']))
    ∧ (∃ a b : Nat,
        cmd0 = List.replicate a '\n' ++ pyStripNl cmd0 ++ List.replicate b '\n')
    ∧ (pyStripNl cmd0).head? ≠ some '\n'
    ∧ (pyStripNl cmd0).getLast? ≠ some '\n' := by
  refine ⟨?_, ?_, ?_, ?_⟩
  · rw [execute_trace_eq]
    rfl
  · unfold pyStripNl
    have hdec := pyStripChars_decomp (fun c => c == '\n') cmd0
    obtain ⟨a, hpre⟩ : ∃ a,
        cmd0.takeWhile (fun c => c == '\n') = List.replicate a '\n' := by
      refine ⟨(cmd0.takeWhile (fun c => c == '\n')).length, ?_⟩
      apply List.eq_replicate_of_mem
      intro b hb
      have hp := List.mem_takeWhile_imp hb
      simpa using hp
    obtain ⟨b, hsuf⟩ : ∃ b,
        ((cmd0.dropWhile (fun c => c == '\n')).reverse.takeWhile
          (fun c => c == '\n')).reverse = List.replicate b '\n' := by
      refine ⟨((cmd0.dropWhile (fun c => c == '\n')).reverse.takeWhile
        (fun c => c == '\n')).reverse.length, ?_⟩
      apply List.eq_replicate_of_mem
      intro d hd
      rw [List.mem_reverse] at hd
      have hp := List.mem_takeWhile_imp hd
      simpa using hp
    refine ⟨a, b, ?_⟩
    conv_lhs => rw [hdec]
    rw [hpre, hsuf]
  · intro hc
    unfold pyStripNl at hc
    have h2 := pyStripChars_head hc
    simp at h2
  · intro hc
    unfold pyStripNl at hc
    have h2 := pyStripChars_getLast hc
    simp at h2

/-- C1 counterexample: with command text "status 1" (a suffix of the
sentinel line), the stream [banner, echo, "out status 1", finish 1] makes
execute return success although the exit code is 1, and the intermediate
line "out status 1" — which does not contain the finish token — is not
forwarded: both halves of the claim fail at this input. -/
theorem C1_cex :
    (execute (("status 1").data)
        [("banner").data, ("status 1").data, ("out status 1").data,
         finishTok ++ (" 1").data]).result = Except.ok ()
    ∧ (execute (("status 1").data)
        [("banner").data, ("status 1").data, ("out status 1").data,
         finishTok ++ (" 1").data]).printed = [] := by
  exact ⟨rfl, by decide⟩

/-- C1 (amended): for a command text already in cleaned form (no surrounding
whitespace or newlines — otherwise the cleaned echo of the command never
suffix-matches it, echoSeen stays false in both model and source, and
nothing is ever forwarded) and a stream that echoes the command and then
emits the sentinel with exit code E, provided the sentinel line does not end
with the command text and no intermediate line starts with the finish token,
execute succeeds iff E = 0, and the lines forwarded to the output sink are
exactly the cleaned intermediate lines that neither contain the finish token
nor end with the command text, in arrival order. -/
theorem C1_echo_stream (cmd ds : Line) (E : Nat) (mid : List Line)
    (hcmd : cleanLine cmd = cmd)
    (hE : parseDigits ds = some E)
    (hsent : pyEndsWith (finishTok ++ ' ' :: ds) cmd = false)
    (hmid : ∀ l ∈ mid, pyStartsWith (cleanLine l) finishTok = false) :
    ((execute cmd (cmd :: (mid ++ [finishTok ++ ' ' :: ds]))).result =
        Except.ok () ↔ E = 0)
    ∧ (execute cmd (cmd :: (mid ++ [finishTok ++ ' ' :: ds]))).printed =
        (mid.map cleanLine).filter
          (fun l => !(pyContains l finishTok) && !(pyEndsWith l cmd)) := by
  have hstrip : pyStripNl cmd = cmd := pyStripNl_of_cleanLine_fix hcmd
  have hloop : execLoop (pyStripNl cmd) false
      (cmd :: (mid ++ [finishTok ++ ' ' :: ds])) =
      LoopOut.done ((mid.map cleanLine).filter
        (fun l => !(pyContains l finishTok) && !(pyEndsWith l cmd))) E := by
    rw [hstrip, execLoop_cons, hcmd, pyEndsWith_self, if_pos rfl]
    exact execLoop_after_echo cmd ds E hE hsent mid hmid
  constructor
  · rw [execute_result_done hloop]
    by_cases h0 : E = 0
    · subst h0
      simp
    · simp [h0]
  · rw [execute_printed_eq, hloop]
    rfl

/-- Witness for C1 at a concrete command, stream and exit code 0. -/
theorem C1_witness :
    ((execute (("ls").data)
        ((("ls").data) :: ([("hello").data] ++ [finishTok ++ ' ' :: ("0").data]))).result =
        Except.ok () ↔ (0 : Nat) = 0)
    ∧ (execute (("ls").data)
        ((("ls").data) :: ([("hello").data] ++ [finishTok ++ ' ' :: ("0").data]))).printed =
        (([("hello").data]).map cleanLine).filter
          (fun l => !(pyContains l finishTok) && !(pyEndsWith l (("ls").data))) :=
  C1_echo_stream (("ls").data) (("0").data) 0 [("hello").data]
    (by decide) (by decide) (by decide) (by decide)

/-- C2 (code bug in the source): the dataclass declares no `pre_execution`
or `post_execution` field, so with a handler as constructed by the dataclass
the attribute read in solve_on_remote raises AttributeError right after the
two staging steps: the no-hook command line the claim describes is never
built and execute is never reached. -/
theorem C2_missing_hook_attributes :
    solveOnRemote mkDefaultHandler envAllOk =
      (Except.error WfError.attributeError,
       [WfEvent.stageScript, WfEvent.putModel]) := rfl

/-- C7: every successful solve_on_remote run stages the script, puts the
unsolved model, executes the built command and gets the solved model —
each exactly once and in that order. -/
theorem C7_workflow_order (h : Handler) (env : RemoteEnv)
    (hok : (solveOnRemote h env).1 = Except.ok ()) :
    ∃ c, buildCommand h = Except.ok c ∧
      (solveOnRemote h env).2 =
        [WfEvent.stageScript, WfEvent.putModel, WfEvent.execCmd c,
         WfEvent.getModel] := by
  cases hs : env.stageOk
  · simp [solveOnRemote, hs] at hok
  · cases hp : env.putOk
    · simp [solveOnRemote, hs, hp] at hok
    · cases hb : buildCommand h with
      | error e => simp [solveOnRemote, hs, hp, hb] at hok
      | ok c =>
        cases hr : (execute c env.stdoutLines).result with
        | error e => simp [solveOnRemote, hs, hp, hb, hr] at hok
        | ok u =>
          cases hg : env.getOk
          · simp [solveOnRemote, hs, hp, hb, hr, hg] at hok
          · exact ⟨c, rfl, by simp [solveOnRemote, hs, hp, hb, hr, hg]⟩

/-- Witness for C7: a concrete successful run with the default paths. -/
theorem C7_witness :
    (solveOnRemote hookHandler envAllOk).2 =
      [WfEvent.stageScript, WfEvent.putModel, WfEvent.execCmd cmdDefaultJoin,
       WfEvent.getModel] := by
  obtain ⟨c, hc, ht⟩ := C7_workflow_order hookHandler envAllOk rfl
  have hc2 : (Except.ok cmdDefaultJoin : Except WfError Line) = Except.ok c := by
    rw [← hc]
    rfl
  cases hc2
  exact ht

/-- C8: the workflow aborts on the first failure with no retry: when the
model upload fails, TransferError surfaces and execute is never invoked;
when execute fails with ExecutionError (nonzero remote exit status), it
surfaces unchanged and get is never invoked. -/
theorem C8_abort_on_failure (h : Handler) (env : RemoteEnv) :
    (env.stageOk = true → env.putOk = false →
      (solveOnRemote h env).1 = Except.error WfError.transferError ∧
      hasExecEvent (solveOnRemote h env).2 = false)
    ∧ (∀ c, buildCommand h = Except.ok c → env.stageOk = true →
        env.putOk = true →
        (execute c env.stdoutLines).result =
          Except.error ExecError.executionError →
        (solveOnRemote h env).1 =
          Except.error (WfError.execError ExecError.executionError) ∧
        WfEvent.getModel ∉ (solveOnRemote h env).2) := by
  constructor
  · intro hs hp
    constructor
    · simp [solveOnRemote, hs, hp]
    · simp [solveOnRemote, hs, hp, hasExecEvent]
  · intro c hb hs hp hr
    constructor
    · simp [solveOnRemote, hs, hp, hb, hr]
    · simp [solveOnRemote, hs, hp, hb, hr]

/-- Witness for C8: a failed upload and a nonzero remote exit status, both
at concrete inputs. -/
theorem C8_witness :
    ((solveOnRemote hookHandler envPutFail).1 =
        Except.error WfError.transferError ∧
      hasExecEvent (solveOnRemote hookHandler envPutFail).2 = false)
    ∧ ((solveOnRemote hookHandler envBadExit).1 =
        Except.error (WfError.execError ExecError.executionError) ∧
      WfEvent.getModel ∉ (solveOnRemote hookHandler envBadExit).2) :=
  ⟨(C8_abort_on_failure hookHandler envPutFail).1 rfl rfl,
   (C8_abort_on_failure hookHandler envBadExit).2 cmdDefaultJoin rfl rfl rfl rfl⟩

theorem pyFormat_no_brace (env : Line → Line) (a : Line)
    (h : ∀ c ∈ a, c ≠ '{') : pyFormat env a = a := by
  have h2 := pyFormat_append_no_brace env [] a h
  rw [List.append_nil] at h2
  rw [h2, pyFormat_nil, List.append_nil]

theorem pyFormat_template (env : Line → Line) :
    pyFormat env commandTemplate =
      ("\nimport linopy\n\nm = linopy.read_netcdf(\"").data ++
        (env (("model_unsolved_file").data) ++
          (("\")\nm.solve(").data ++
            (env (("solve_kwargs").data) ++
              (((")\nm.to_netcdf(\"").data) ++
                (env (("model_solved_file").data) ++ ("\")\n").data))))) := by
  have hdec : commandTemplate =
      ("\nimport linopy\n\nm = linopy.read_netcdf(\"").data ++
        ('{' :: (("model_unsolved_file").data ++ '}' ::
          (("\")\nm.solve(").data ++
            ('{' :: (("solve_kwargs").data ++ '}' ::
              (((")\nm.to_netcdf(\"").data) ++
                ('{' :: (("model_solved_file").data ++ '}' ::
                  ("\")\n").data)))))))) := by decide
  rw [hdec]
  rw [pyFormat_append_no_brace env _
    (("\nimport linopy\n\nm = linopy.read_netcdf(\"").data) (by decide)]
  rw [pyFormat_brace env (("model_unsolved_file").data) _ (by decide)]
  rw [pyFormat_append_no_brace env _ (("\")\nm.solve(").data) (by decide)]
  rw [pyFormat_brace env (("solve_kwargs").data) _ (by decide)]
  rw [pyFormat_append_no_brace env _ (((")\nm.to_netcdf(\"").data)) (by decide)]
  rw [pyFormat_brace env (("model_solved_file").data) _ (by decide)]
  rw [pyFormat_no_brace env (("\")\n").data) (by decide)]

/-- C9: the script formatter is a pure function — two calls on identical
arguments give identical text — and it embeds its three arguments verbatim
into the fixed three-statement template: read the unsolved model from the
first, solve with the options, write the solved model to the second. -/
theorem C9_render_pure_verbatim (u o s : Line) :
    renderScript u o s = renderScript u o s
    ∧ renderScript u o s =
        ("\nimport linopy\n\nm = linopy.read_netcdf(\"").data ++ u ++
          ("\")\nm.solve(").data ++ o ++ ((")\nm.to_netcdf(\"").data) ++ s ++
          ("\")\n").data
    ∧ u <:+: renderScript u o s
    ∧ o <:+: renderScript u o s
    ∧ s <:+: renderScript u o s := by
  have key : renderScript u o s =
      ("\nimport linopy\n\nm = linopy.read_netcdf(\"").data ++
        (u ++ (("\")\nm.solve(").data ++
          (o ++ (((")\nm.to_netcdf(\"").data) ++
            (s ++ ("\")\n").data))))) := by
    rw [renderScript, pyFormat_template]
    rfl
  refine ⟨rfl, ?_, ?_, ?_, ?_⟩
  · rw [key]
    simp [List.append_assoc]
  · exact ⟨("\nimport linopy\n\nm = linopy.read_netcdf(\"").data,
      ("\")\nm.solve(").data ++
        (o ++ (((")\nm.to_netcdf(\"").data) ++ (s ++ ("\")\n").data))),
      by rw [key]; simp [List.append_assoc]⟩
  · exact ⟨("\nimport linopy\n\nm = linopy.read_netcdf(\"").data ++ u ++
        ("\")\nm.solve(").data,
      ((")\nm.to_netcdf(\"").data) ++ (s ++ ("\")\n").data),
      by rw [key]; simp [List.append_assoc]⟩
  · exact ⟨("\nimport linopy\n\nm = linopy.read_netcdf(\"").data ++ u ++
        ("\")\nm.solve(").data ++ o ++ ((")\nm.to_netcdf(\"").data),
      ("\")\n").data,
      by rw [key]; simp [List.append_assoc]⟩

end Linopy
